import Mathlib

/-!
Verification of the cqrskit CQRS/event-sourcing library against its
natural-language specification.  The definitions below are a shallow
embedding of the TypeScript sources: wire-level events, the upcaster
chain, the command router with its state-rebuilding cache, the
asynchronous event-handling processor with partitioning and retry, and
the default partition key resolver.  Machine integers (the 32-bit
rolling hash) are modelled as Int with explicit wrapping; fallible
TypeScript code (throwing handlers, failing deserialization) is
modelled with Option/Except; the heterogeneous runtime values of the
TypeScript code are modelled by type parameters (P = event payload,
I = aggregate instance, CD = command data, R = command result)
together with the class-name functions the code obtains by runtime
reflection.
-/

namespace CQRSKit

/-- Event metadata: a JavaScript record of string keys.  Keys are unique
in a JS object; values are kept as opaque strings. -/
abbrev Metadata := List (String × String)

/-- Wire-level event (types/Event.ts, interface RawEvent).  Store-assigned
ids are modelled as Nat: the in-memory adapter assigns them from a
monotonically increasing counter, so they are an ordering token. -/
structure RawEvent where
  id : Nat
  type : String
  source : String
  subject : String
  time : Nat
  data : String
  metadata : Metadata
deriving DecidableEq, Repr

/-- Precondition (types/Event.ts).  The only payload field the in-memory
adapter reads is payload.subject, so the payload is modelled by it. -/
structure Precondition where
  type : String
  subject : String
deriving DecidableEq, Repr

/-- Event awaiting publication (types/Event.ts, interface EventToPublish). -/
structure EventToPublish where
  source : String
  subject : String
  type : String
  data : String
  metadata : Metadata
  preconditions : List Precondition
deriving DecidableEq, Repr

/-! ### Upcaster chain (upcaster/EventUpcaster.ts) -/

/-- Result of one upcasting operation: new type and transformed data. -/
structure UpcasterResult where
  type : String
  data : String

/-- A single upcaster: a claim predicate and a transformation that may
split, transform or drop the event. -/
structure EventUpcaster where
  canUpcast : RawEvent → Bool
  upcast : RawEvent → List UpcasterResult

/-- The registered chain of upcasters. -/
abbrev EventUpcasters := List EventUpcaster

/-- One upcaster applied to one event inside a pass: if the upcaster
claims the event, every result is spread over the original event
(only type and data replaced); otherwise the event passes through. -/
def applyUpcaster (u : EventUpcaster) (evt : RawEvent) : List RawEvent :=
  if u.canUpcast evt then
    (u.upcast evt).map (fun r => { evt with type := r.type, data := r.data })
  else [evt]

/-- One full pass of a single upcaster over the growing result set
(the inner for-loop of EventUpcasters.upcast building newEvents). -/
def upcastPass (events : List RawEvent) (u : EventUpcaster) : List RawEvent :=
  events.flatMap (applyUpcaster u)

/-- EventUpcasters.upcast: apply all upcasters in registration order,
each pass feeding the previous result set into the next upcaster. -/
def EventUpcasters.upcast (chain : EventUpcasters) (event : RawEvent) : List RawEvent :=
  chain.foldl upcastPass [event]

/-! ### Default partition key resolver
(eventhandler/partitioning/PartitionKeyResolver.ts)

JavaScript semantics made explicit: charCodeAt yields UTF-16 code
units (equal to Char.toNat for the Basic Multilingual Plane, which
covers every string the spec mentions); the shift left by 5 operates
on 32-bit signed integers with wrap-around; the subtraction and the
addition of the char code are exact in doubles; the bitwise and with
itself truncates back to a 32-bit signed integer. -/

/-- ToInt32: wrap an integer into the signed 32-bit range. -/
def toInt32 (n : Int) : Int :=
  (n + 2 ^ 31) % 2 ^ 32 - 2 ^ 31

/-- One iteration of the rolling hash:
hash = (hash << 5) - hash + charCode, truncated to 32 bits. -/
def hashStep (h : Int) (c : Nat) : Int :=
  toInt32 (toInt32 (h * 32) - h + c)

/-- The 32-bit rolling hash of a string (the for-loop of resolve). -/
def hashString (s : String) : Int :=
  s.data.foldl (fun h c => hashStep h c.toNat) 0

/-- DefaultPartitionKeyResolver.resolve: Math.abs of the hash reduced
modulo the partition count. -/
def DefaultPartitionKeyResolver.resolve (partitionCount : Nat) (sequenceId : String) : Nat :=
  (hashString sequenceId).natAbs % partitionCount

/-! ### Event store adapter (examples/custom-adapter/InMemoryAdapter.ts)

The router and the processor consume the EventStoreAdapter contract;
the concrete semantics modelled here are those of the in-memory
adapter shipped with the repository: an append-only ordered log with
counter-assigned ids, subject filtering (exact or prefix-recursive)
and a lowerBound option that slices after the first event whose id
matches the bound. -/

/-- The adapter state: the ordered log and the id counter. -/
structure EventStore where
  events : List RawEvent
  idCounter : Nat
deriving DecidableEq, Repr

/-- Subject scope check of filterEventsBySubject: exact match, or, when
recursive, the subject itself plus every descendant path. -/
def subjectMatches (subject : String) (recursive : Bool) (s : String) : Bool :=
  if recursive then s == subject || (subject ++ "/").isPrefixOf s
  else s == subject

/-- filterEventsBySubject. -/
def filterEventsBySubject (events : List RawEvent) (subject : String) (recursive : Bool) :
    List RawEvent :=
  events.filter (fun e => subjectMatches subject recursive e.subject)

/-- The lowerBound handling of streamEvents: find the event with the
given id in the already-filtered list and slice after (or at) it;
an absent bound or an id that does not occur leaves the list whole. -/
def applyLowerBound (events : List RawEvent) (bound : Option Nat) (includeLowerBound : Bool) :
    List RawEvent :=
  match bound with
  | none => events
  | some b =>
    match events.findIdx? (fun e => e.id == b) with
    | none => events
    | some i => events.drop (if includeLowerBound then i else i + 1)

/-- streamEvents with the option fields the router and the processor
actually pass (lowerBound with includeLowerBound = false). -/
def streamEvents (store : EventStore) (subject : String) (lowerBound : Option Nat)
    (recursive : Bool) : List RawEvent :=
  applyLowerBound (filterEventsBySubject store.events subject recursive) lowerBound false

/-- checkPrecondition of the in-memory adapter: only isSubjectNew is
implemented; it throws when any event for the subject exists. -/
def checkPrecondition (events : List RawEvent) (p : Precondition) : Except String Unit :=
  if p.type = "isSubjectNew" then
    if events.any (fun e => e.subject == p.subject) then
      .error ("Precondition failed: subject " ++ p.subject ++ " already exists")
    else .ok ()
  else .ok ()

/-- publishEvents: check all preconditions first (first failure rejects
the whole batch), then append every event with a fresh counter id. -/
def EventStore.publishEvents (store : EventStore) (evts : List EventToPublish)
    (preconditions : List Precondition) : Except String EventStore :=
  match preconditions.foldlM (fun _ p => checkPrecondition store.events p) () with
  | .error msg => .error msg
  | .ok _ =>
    let newEvents := evts.enum.map (fun ie =>
      { id := store.idCounter + ie.1, type := ie.2.type, source := ie.2.source,
        subject := ie.2.subject, time := store.idCounter + ie.1, data := ie.2.data,
        metadata := ie.2.metadata : RawEvent })
    .ok { events := store.events ++ newEvents, idCounter := store.idCounter + evts.length }

/-! ### Commands and handler registrations (command/Command.ts,
command/CommandHandlerDefinition.ts, command/StateRebuildingHandlerDefinition.ts)

The TypeScript code dispatches on runtime class names and on declared
handler arity.  Class names are modelled as explicit String fields and
class-name functions; a handler of any declared arity is embedded as a
function of the full argument tuple (a lower-arity handler simply
ignores the arguments the router would not have passed it, and the
arity-3 state-rebuilding variant, which receives the raw event when one
is present and the metadata otherwise, is embedded as a function
branching on the Option RawEvent argument). -/

/-- SubjectCondition (command/Command.ts). -/
inductive SubjectCondition where
  | NONE
  | NEW
  | EXISTS
deriving DecidableEq, Repr

/-- SourcingMode (command/SourcingMode.ts). -/
inductive SourcingMode where
  | NONE
  | LOCAL
  | RECURSIVE
deriving DecidableEq, Repr

/-- A command: runtime class name, getSubject, optional
getSubjectCondition, and its domain data. -/
structure Command (CD : Type) where
  className : String
  subject : String
  subjectCondition : Option SubjectCondition
  data : CD
deriving DecidableEq, Repr

/-- An event captured by the buffering publisher during command
execution (payload, per-event metadata, declared preconditions). -/
structure CapturedEvent (P : Type) where
  payload : P
  metadata : Metadata
  preconditions : List Precondition

/-- CommandHandlerDefinition.  The handler is embedded as a pure
function returning the result together with the events it published
through the buffering publisher, or an error when it throws. -/
structure CommandHandlerDef (P I CD R : Type) where
  commandClassName : String
  instanceClassName : String
  sourcingMode : SourcingMode
  handler : Option I → Command CD → Metadata → Except String (R × List (CapturedEvent P))

/-- StateRebuildingHandlerDefinition: registered for an aggregate class
and an event class; the handler folds an event into the instance and
may throw. -/
structure StateRebuildingHandlerDef (P I : Type) where
  instanceClassName : String
  eventClassName : String
  handler : Option I → P → Metadata → String → Option RawEvent → Except String I

/-- MetadataPropagationMode (command/CommandRouter.ts). -/
inductive MetadataPropagationMode where
  | NONE
  | SHALLOW
  | DEEP
deriving DecidableEq, Repr

/-- Metadata propagation configuration. -/
structure MetadataPropagation where
  mode : MetadataPropagationMode
  keys : Option (List String)

/-- Record lookup on metadata. -/
def mlookup (m : Metadata) (k : String) : Option String :=
  (m.find? (fun p => p.1 == k)).map (fun p => p.2)

/-- JavaScript object spread of two records: keys of b override keys of a. -/
def mspread (a b : Metadata) : Metadata :=
  a.filter (fun p => !(b.any (fun q => q.1 == p.1))) ++ b

/-- Record key assignment (update in place, else append). -/
def msetKey (m : Metadata) (k v : String) : Metadata :=
  if m.any (fun p => p.1 == k) then
    m.map (fun p => if p.1 == k then (k, v) else p)
  else m ++ [(k, v)]

/-- CommandRouter.propagateMetadata. -/
def propagateMetadata (mp : MetadataPropagation) (commandMetadata eventMetadata : Metadata) :
    Metadata :=
  if mp.mode = .NONE then eventMetadata
  else if mp.mode = .DEEP then mspread commandMetadata eventMetadata
  else
    match mp.keys with
    | some keys =>
      keys.foldl (fun acc k =>
        match mlookup commandMetadata k with
        | some v => msetKey acc k v
        | none => acc) eventMetadata
    | none => eventMetadata

/-- The full router wiring (CommandRouterConfig plus the collaborators:
type resolver and data marshaller).  deserialize models
eventTypeResolver.getClass followed by eventDataMarshaller.deserialize
on (type, data); none models a throw of either (unregistered type or
malformed payload).  payloadClassName models event.constructor.name of
a deserialized or published payload; getEventType models
eventTypeResolver.getEventType(event.constructor); serialize models
eventDataMarshaller.serialize on the merged metadata and the payload. -/
structure RouterConfig (P I CD R : Type) where
  commandHandlers : List (CommandHandlerDef P I CD R)
  stateRebuildingHandlers : List (StateRebuildingHandlerDef P I)
  eventSource : String
  upcasters : EventUpcasters
  metadataPropagation : MetadataPropagation
  deserialize : String → String → Option (Metadata × P)
  payloadClassName : P → String
  getEventType : P → String
  serialize : Metadata → P → String

/-- Lookup in a map built with repeated Map.set keyed by a name: the
last registration for a name wins. -/
def lookupLast {α : Type} (key : α → String) (l : List α) (k : String) : Option α :=
  (l.filter (fun d => key d == k)).getLast?

/-- The state-rebuilding handlers registered for one aggregate class, in
registration order (the Map of lists built by the constructor). -/
def srHandlersFor {P I CD R : Type} (cfg : RouterConfig P I CD R) (icn : String) :
    List (StateRebuildingHandlerDef P I) :=
  cfg.stateRebuildingHandlers.filter (fun d => d.instanceClassName == icn)

/-- CommandRouter.applyStateRebuilding: all handlers registered for the
aggregate class whose event class matches the runtime class of the
event are invoked in registration order, each receiving the previous
output; a throw of any handler propagates. -/
def applyStateRebuilding {P I CD R : Type} (cfg : RouterConfig P I CD R) (icn : String)
    (inst : Option I) (event : P) (meta : Metadata) (subject : String)
    (rawEvent : Option RawEvent) : Except String (Option I) :=
  (srHandlersFor cfg icn).foldlM
    (fun acc h =>
      if h.eventClassName == cfg.payloadClassName event then
        (h.handler acc event meta subject rawEvent).map some
      else pure acc)
    inst

/-! ### State rebuilding cache (command/cache/StateRebuildingCache.ts)

The in-memory cache is a JS Map in insertion order used as an LRU:
fetchAndMerge looks the key up, deletes it when present, runs the
merger on the cached value (or null), re-inserts the merged value at
the end, and evicts the oldest entry when over capacity.  This
definition is the sequential (single-caller) semantics; the
interleaved semantics of two concurrent callers is modelled separately
below for the concurrency claim. -/

/-- Cached state value.  The TypeScript field named instance is called
inst here (instance is a Lean keyword); eventId is an Option because
the merger stores currentEventId even when it is still null. -/
structure CacheValue (I : Type) where
  eventId : Option Nat
  inst : Option I
  sourcedSubjectIds : List (String × Nat)
deriving DecidableEq, Repr

/-- LRU map state of InMemoryStateCache (front = oldest). -/
structure InMemoryStateCache (I : Type) where
  entries : List (String × CacheValue I)
  capacity : Nat
deriving DecidableEq, Repr

/-- A configured cache: the no-op default or the in-memory LRU. -/
inductive StateCache (I : Type) where
  | noCache
  | inMemory (c : InMemoryStateCache I)
deriving DecidableEq, Repr

/-- buildKey: subject, instance class name and sourcing mode joined. -/
def modeName : SourcingMode → String
  | .NONE => "NONE"
  | .LOCAL => "LOCAL"
  | .RECURSIVE => "RECURSIVE"

/-- The string cache key. -/
def buildKey (subject icn : String) (m : SourcingMode) : String :=
  subject ++ ":" ++ icn ++ ":" ++ modeName m

/-- Map lookup by key. -/
def lookupEntry {I : Type} (entries : List (String × CacheValue I)) (k : String) :
    Option (CacheValue I) :=
  (entries.find? (fun p => p.1 == k)).map (fun p => p.2)

/-- Map deletion by key. -/
def eraseEntry {I : Type} (entries : List (String × CacheValue I)) (k : String) :
    List (String × CacheValue I) :=
  entries.filter (fun p => p.1 != k)

/-- InMemoryStateCache.fetchAndMerge, sequential semantics. -/
def InMemoryStateCache.fetchAndMerge {I : Type} (c : InMemoryStateCache I) (k : String)
    (merger : Option (CacheValue I) → CacheValue I) :
    CacheValue I × InMemoryStateCache I :=
  let cached := lookupEntry c.entries k
  let entries1 := if cached.isSome then eraseEntry c.entries k else c.entries
  let merged := merger cached
  let entries2 := entries1 ++ [(k, merged)]
  let entries3 := if c.capacity < entries2.length then entries2.drop 1 else entries2
  (merged, { c with entries := entries3 })

/-- Dispatch over the configured cache (NoStateRebuildingCache runs the
merger on null and stores nothing). -/
def StateCache.fetchAndMerge {I : Type} (cache : StateCache I) (k : String)
    (merger : Option (CacheValue I) → CacheValue I) : CacheValue I × StateCache I :=
  match cache with
  | .noCache => (merger none, .noCache)
  | .inMemory c =>
    let r := c.fetchAndMerge k merger
    (r.1, .inMemory r.2)

/-- Lookup through the StateCache wrapper (observation helper). -/
def StateCache.lookup {I : Type} (cache : StateCache I) (k : String) : Option (CacheValue I) :=
  match cache with
  | .noCache => none
  | .inMemory c => lookupEntry c.entries k

/-! ### Rebuild protocol (CommandRouter.rebuildState) -/

/-- The mutable loop state of the merger inside rebuildState:
currentInstance, currentEventId, currentSourced. -/
structure RebuildSt (I : Type) where
  inst : Option I
  eid : Option Nat
  sourced : List (String × Nat)
deriving DecidableEq, Repr

/-- JS Map.set on the sourced-subject map (update in place, else append). -/
def setAssoc (m : List (String × Nat)) (k : String) (v : Nat) : List (String × Nat) :=
  if m.any (fun p => p.1 == k) then
    m.map (fun p => if p.1 == k then (k, v) else p)
  else m ++ [(k, v)]

/-- One upcasted event inside the rebuild stream loop: deserialize and
fold through the state-rebuilding handlers inside a try/catch; any
throw (unregistered type, malformed payload, or a throwing handler)
skips the event, leaving instance, event id and sourced map at their
prior values. -/
def applyUpcasted {P I CD R : Type} (cfg : RouterConfig P I CD R) (icn : String)
    (st : RebuildSt I) (u : RawEvent) : RebuildSt I :=
  match cfg.deserialize u.type u.data with
  | none => st
  | some md =>
    match applyStateRebuilding cfg icn st.inst md.2 md.1 u.subject (some u) with
    | .error _ => st
    | .ok inst1 => { inst := inst1, eid := some u.id, sourced := setAssoc st.sourced u.subject u.id }

/-- One raw event of the rebuild stream: upcast it and fold every
upcasted event through applyUpcasted. -/
def rebuildStep {P I CD R : Type} (cfg : RouterConfig P I CD R) (icn : String)
    (st : RebuildSt I) (e : RawEvent) : RebuildSt I :=
  (EventUpcasters.upcast cfg.upcasters e).foldl (applyUpcasted cfg icn) st

/-- The whole rebuild stream fold. -/
def foldRS {P I CD R : Type} (cfg : RouterConfig P I CD R) (icn : String)
    (st : RebuildSt I) (l : List RawEvent) : RebuildSt I :=
  l.foldl (rebuildStep cfg icn) st

/-- The final loop state packaged as the value the merger returns
(eventId, instance, sourcedSubjectIds). -/
def toCacheValue {I : Type} (st : RebuildSt I) : CacheValue I :=
  { eventId := st.eid, inst := st.inst, sourcedSubjectIds := st.sourced }

/-- The merger passed to fetchAndMerge by rebuildState: resume the
stream after the cached event id (or from the beginning), fold every
event, and return the final (eventId, instance, sourced) value. -/
def rebuildMerger {P I CD R : Type} (cfg : RouterConfig P I CD R) (store : EventStore)
    (subject icn : String) (recursive : Bool) (cached : Option (CacheValue I)) : CacheValue I :=
  let cInst := cached.bind (fun cv => cv.inst)
  let cEid := cached.bind (fun cv => cv.eventId)
  let cSourced := (cached.map (fun cv => cv.sourcedSubjectIds)).getD []
  toCacheValue (foldRS cfg icn ⟨cInst, cEid, cSourced⟩ (streamEvents store subject cEid recursive))

/-- CommandRouter.rebuildState: sourcing mode NONE short-circuits with
no instance and no event id and never touches the cache; otherwise the
merge runs through the cache. -/
def rebuildState {P I CD R : Type} (cfg : RouterConfig P I CD R) (store : EventStore)
    (cache : StateCache I) (subject icn : String) (mode : SourcingMode) :
    Option I × Option Nat × StateCache I :=
  if mode = .NONE then (none, none, cache)
  else
    let r := cache.fetchAndMerge (buildKey subject icn mode)
      (rebuildMerger cfg store subject icn (mode == .RECURSIVE))
    (r.1.inst, r.1.eventId, r.2)

/-! ### send (CommandRouter.send) -/

/-- The errors send can reject with. -/
inductive SendError where
  | noHandler (commandName : String)
  | subjectMustBeNew (subject : String)
  | subjectMustExist (subject : String)
  | commandHandlerError (msg : String)
  | stateRebuildingError (msg : String)
  | publishError (msg : String)
deriving DecidableEq, Repr

/-- CommandRouter.validateSubjectCondition. -/
def validateSubjectCondition (subject : String) (condition : SubjectCondition)
    (lastEventId : Option Nat) : Except SendError Unit :=
  if condition = .NEW then
    if lastEventId ≠ none then .error (.subjectMustBeNew subject) else .ok ()
  else if condition = .EXISTS then
    if lastEventId = none then .error (.subjectMustExist subject) else .ok ()
  else .ok ()

/-- Step 5 of send: replay the state-rebuilding handlers over the
buffered events in publish order (rawEvent is null here); a throw
propagates to the caller of send. -/
def localReplayFold {P I CD R : Type} (cfg : RouterConfig P I CD R) (icn : String)
    (subject : String) (inst : Option I) (captured : List (CapturedEvent P)) :
    Except String (Option I) :=
  captured.foldlM
    (fun acc c => applyStateRebuilding cfg icn acc c.payload c.metadata subject none)
    inst

/-- The observable outcome of one send call: the returned or thrown
result, the store and cache afterwards, whether the command handler
was invoked (step 4 reached), and the final value of the local
updatedInstance replay when step 5 completed. -/
structure SendResult (I R : Type) where
  result : Except SendError R
  store : EventStore
  cache : StateCache I
  handlerInvoked : Bool
  localReplay : Option (Option I)
deriving Repr

/-- CommandRouter.send: resolve the handler, rebuild state, validate the
subject condition, run the handler with a buffering publisher, replay
the buffered events locally, and publish them atomically. -/
def send {P I CD R : Type} (cfg : RouterConfig P I CD R) (store : EventStore)
    (cache : StateCache I) (command : Command CD) (metadata : Metadata) : SendResult I R :=
  match lookupLast (fun d => d.commandClassName) cfg.commandHandlers command.className with
  | none =>
    { result := .error (.noHandler command.className), store := store, cache := cache,
      handlerInvoked := false, localReplay := none }
  | some defn =>
    let subject := command.subject
    let subjectCondition := command.subjectCondition.getD .NONE
    let reb := rebuildState cfg store cache subject defn.instanceClassName defn.sourcingMode
    match validateSubjectCondition subject subjectCondition reb.2.1 with
    | .error e =>
      { result := .error e, store := store, cache := reb.2.2,
        handlerInvoked := false, localReplay := none }
    | .ok _ =>
      match defn.handler reb.1 command metadata with
      | .error msg =>
        { result := .error (.commandHandlerError msg), store := store, cache := reb.2.2,
          handlerInvoked := true, localReplay := none }
      | .ok rc =>
        match localReplayFold cfg defn.instanceClassName subject reb.1 rc.2 with
        | .error msg =>
          { result := .error (.stateRebuildingError msg), store := store, cache := reb.2.2,
            handlerInvoked := true, localReplay := none }
        | .ok updatedInstance =>
          if rc.2.isEmpty then
            { result := .ok rc.1, store := store, cache := reb.2.2,
              handlerInvoked := true, localReplay := some updatedInstance }
          else
            let eventsToPublish := rc.2.map (fun c =>
              { source := cfg.eventSource, subject := subject,
                type := cfg.getEventType c.payload,
                data := cfg.serialize (propagateMetadata cfg.metadataPropagation metadata c.metadata) c.payload,
                metadata := c.metadata,
                preconditions := c.preconditions : EventToPublish })
            let allPreconditions := rc.2.flatMap (fun c => c.preconditions)
            match store.publishEvents eventsToPublish allPreconditions with
            | .error msg =>
              { result := .error (.publishError msg), store := store, cache := reb.2.2,
                handlerInvoked := true, localReplay := some updatedInstance }
            | .ok store1 =>
              { result := .ok rc.1, store := store1, cache := reb.2.2,
                handlerInvoked := true, localReplay := some updatedInstance }

/-! ### Event handling processor (eventhandler/EventHandlingProcessor.ts)

One processor instance for one (group, partition), driven here over a
finite list of observed raw events (one pass of the main loop over the
observation stream).  The progress tracker is the in-memory one
(eventhandler/progress/ProgressTracker.ts), whose current/proceed
never throw; upcasters are total functions.  Observable effects are
threaded through an explicit state: the committed progress, the
handler invocation log, the backoff sleeps, the per-upcast-result
warnings (console.warn Skipping event) and the permanent failures
(console.error after retries are exhausted). -/

/-- EventHandlerDefinition. -/
structure EventHandlerDef (P : Type) where
  group : String
  eventClassName : String
  handler : P → Metadata → RawEvent → Except String Unit

/-- EventSequenceResolver: dispatched by arity in resolveSequenceId. -/
inductive EventSequenceResolver (P : Type) where
  | forRawEvent (f : RawEvent → String)
  | forObjectAndMetadataAndRawEvent (f : Option P → Metadata → RawEvent → String)

/-- The processor wiring.  deserialize models getClass followed by the
marshaller and returns the resolved event class name together with
metadata and payload (the processor dispatches handlers on the class
resolved from the type string). -/
structure ProcessorConfig (P : Type) where
  group : String
  partition : Nat
  eventHandlers : List (EventHandlerDef P)
  partitionResolve : String → Nat
  seqResolver : EventSequenceResolver P
  upcasters : EventUpcasters
  deserialize : String → String → Option (String × Metadata × P)
  maxRetries : Nat
  retryDelay : Nat

/-- The observable processor state. -/
structure ProcessorState where
  progressEventId : Option Nat
  handlerCalls : List (Nat × String)
  sleeps : List Nat
  warns : List Nat
  permanentFailures : List Nat
deriving DecidableEq, Repr

/-- EventHandlingProcessor.resolveSequenceId: an arity-1 resolver gets
the raw event; otherwise the resolver gets the converted event, the
metadata of the metadata event, and the raw event. -/
def resolveSequenceId {P : Type} (r : EventSequenceResolver P) (rawEvent : RawEvent)
    (converted : Option P) (metaEvent : RawEvent) : String :=
  match r with
  | .forRawEvent f => f rawEvent
  | .forObjectAndMetadataAndRawEvent f => f converted metaEvent.metadata rawEvent

/-- The handlers indexed for one event class within the configured
group, in registration order. -/
def handlersFor {P : Type} (cfg : ProcessorConfig P) (eventClassName : String) :
    List (EventHandlerDef P) :=
  cfg.eventHandlers.filter (fun d => d.group == cfg.group && d.eventClassName == eventClassName)

/-- Invoke the matching handlers in order; each invocation is logged;
the first throw aborts the remaining handlers for this upcast result
and surfaces the error to the enclosing catch. -/
def invokeHandlers {P : Type} (hs : List (EventHandlerDef P)) (payload : P) (meta : Metadata)
    (u : RawEvent) (st : ProcessorState) : ProcessorState × Option String :=
  match hs with
  | [] => (st, none)
  | h :: t =>
    let st1 := { st with handlerCalls := st.handlerCalls ++ [(u.id, h.eventClassName)] }
    match h.handler payload meta u with
    | .ok _ => invokeHandlers t payload meta u st1
    | .error msg => (st1, some msg)

/-- The per-upcast-result try/catch body of processEvent: deserialize,
re-resolve the partition on the converted event and skip when it maps
elsewhere, then dispatch handlers; any throw inside (deserialization
or a handler) is caught and logged as a Skipping event warning. -/
def processUpcasted {P : Type} (cfg : ProcessorConfig P) (st : ProcessorState) (u : RawEvent) :
    ProcessorState :=
  match cfg.deserialize u.type u.data with
  | none => { st with warns := st.warns ++ [u.id] }
  | some cmp =>
    let seqId := resolveSequenceId cfg.seqResolver u (some cmp.2.2) u
    let partition := cfg.partitionResolve seqId
    if partition ≠ cfg.partition then st
    else
      match invokeHandlers (handlersFor cfg cmp.1) cmp.2.2 cmp.2.1 u st with
      | (st1, none) => st1
      | (st1, some _) => { st1 with warns := st1.warns ++ [u.id] }

/-- EventHandlingProcessor.processEvent: upcast the raw event, process
every upcast result (each in its own try/catch), then commit progress
to the raw event id.  The second component is the error the call
throws; with total upcasters and the in-memory progress tracker no
statement outside the per-upcast-result try/catch can throw, so it is
always none. -/
def processEvent {P : Type} (cfg : ProcessorConfig P) (st : ProcessorState) (e : RawEvent) :
    ProcessorState × Option String :=
  let st1 := (EventUpcasters.upcast cfg.upcasters e).foldl (processUpcasted cfg) st
  ({ st1 with progressEventId := some e.id }, none)

/-- The while-loop of processEventWithRetry, structured on the number
of attempts still allowed.  When attempts run out the failure is
logged permanently and progress is still advanced to the event id. -/
def retryGo {P : Type} (cfg : ProcessorConfig P) (e : RawEvent) :
    Nat → ProcessorState → ProcessorState
  | 0, st =>
    { st with permanentFailures := st.permanentFailures ++ [e.id],
              progressEventId := some e.id }
  | Nat.succ n, st =>
    match processEvent cfg st e with
    | (st1, none) => st1
    | (st1, some _) =>
      match n with
      | 0 => retryGo cfg e 0 st1
      | Nat.succ m =>
        retryGo cfg e (Nat.succ m)
          { st1 with sleeps := st1.sleeps ++ [cfg.retryDelay * 2 ^ (cfg.maxRetries - Nat.succ n)] }

/-- EventHandlingProcessor.processEventWithRetry. -/
def processEventWithRetry {P : Type} (cfg : ProcessorConfig P) (e : RawEvent)
    (st : ProcessorState) : ProcessorState :=
  retryGo cfg e cfg.maxRetries st

/-- One observed raw event in the main loop: resolve the partition at
the raw-event level; a foreign event advances progress without any
handler invocation, an owned event goes through retry processing. -/
def handleObserved {P : Type} (cfg : ProcessorConfig P) (st : ProcessorState) (e : RawEvent) :
    ProcessorState :=
  let seqId := resolveSequenceId cfg.seqResolver e none e
  let partition := cfg.partitionResolve seqId
  if partition ≠ cfg.partition then { st with progressEventId := some e.id }
  else processEventWithRetry cfg e st

/-- One pass of the main loop over a finite observation stream. -/
def runObserved {P : Type} (cfg : ProcessorConfig P) (st : ProcessorState)
    (events : List RawEvent) : ProcessorState :=
  events.foldl (handleObserved cfg) st

/-! ### Interleaved semantics of InMemoryStateCache.fetchAndMerge

fetchAndMerge is an async method whose merger streams events with an
await at every event; between the map lookup/delete and the final
map.set other callers run freely.  Two concurrent callers for the same
key are modelled as tasks advancing through atomic micro-steps: the
synchronous prologue (get + delete), one step per streamed event of
the rebuild merger, and the synchronous epilogue (set).  A schedule is
the list of which task takes the next micro-step; every read of the
stream is logged as (task, event id). -/

/-- The phase of one in-flight fetchAndMerge call. -/
inductive TaskPhase (I : Type) where
  | notStarted
  | merging (st : RebuildSt I) (remaining : List RawEvent)
  | finished
deriving DecidableEq, Repr

/-- The shared state: the cache entry for the contended key, the two
task phases and the log of streaming reads. -/
structure ConcurrentState (I : Type) where
  shared : Option (CacheValue I)
  phase0 : TaskPhase I
  phase1 : TaskPhase I
  readLog : List (Bool × Nat)
deriving DecidableEq, Repr

/-- Replace the phase of one task. -/
def setPhase {I : Type} (sys : ConcurrentState I) (t : Bool) (p : TaskPhase I) :
    ConcurrentState I :=
  if t then { sys with phase1 := p } else { sys with phase0 := p }

/-- One micro-step of task t. -/
def taskStep {P I CD R : Type} (cfg : RouterConfig P I CD R) (store : EventStore)
    (subject icn : String) (recursive : Bool) (sys : ConcurrentState I) (t : Bool) :
    ConcurrentState I :=
  match (if t then sys.phase1 else sys.phase0) with
  | .notStarted =>
    let cached := sys.shared
    let sys1 := if cached.isSome then { sys with shared := none } else sys
    let st0 : RebuildSt I :=
      ⟨cached.bind (fun cv => cv.inst), cached.bind (fun cv => cv.eventId),
       (cached.map (fun cv => cv.sourcedSubjectIds)).getD []⟩
    let remaining := streamEvents store subject (cached.bind (fun cv => cv.eventId)) recursive
    setPhase sys1 t (.merging st0 remaining)
  | .merging st (e :: rest) =>
    setPhase { sys with readLog := sys.readLog ++ [(t, e.id)] } t
      (.merging (rebuildStep cfg icn st e) rest)
  | .merging st [] =>
    setPhase { sys with shared := some ⟨st.eid, st.inst, st.sourced⟩ } t .finished
  | .finished => sys

/-- Run a schedule of micro-steps. -/
def runSchedule {P I CD R : Type} (cfg : RouterConfig P I CD R) (store : EventStore)
    (subject icn : String) (recursive : Bool) (sys : ConcurrentState I)
    (sched : List Bool) : ConcurrentState I :=
  sched.foldl (taskStep cfg store subject icn recursive) sys

/-- How often the task performing consecutive reads changes in a read
log; a log in which the streaming reads of two tasks never interleave
has at most one such switch. -/
def switchCount (l : List (Bool × Nat)) : Nat :=
  ((l.map (fun p => p.1)).zip (l.map (fun p => p.1)).tail).countP (fun p => p.1 != p.2)

/-! ### Verification-side predicates -/

/-- An optional lower bound is strictly below an id (null means no
bound, so every id qualifies). -/
def optLtB : Option Nat → Nat → Bool
  | none, _ => true
  | some b, x => Nat.blt b x

/-- The event ids of a list are strictly increasing and all lie
strictly above an optional lower bound: the shape a store-assigned
monotonic id sequence has. -/
def idsIncrB : Option Nat → List RawEvent → Bool
  | _, [] => true
  | b, e :: l => optLtB b e.id && idsIncrB (some e.id) l

/-- An upcast output inherits the identity fields of its input; only
type and data may differ. -/
def inheritsFrom (a b : RawEvent) : Prop :=
  a.id = b.id ∧ a.subject = b.subject ∧ a.source = b.source ∧ a.time = b.time ∧
    a.metadata = b.metadata

/-! ### Concrete demonstration domain

A small task aggregate used to instantiate the generic theorems:
payloads are created/renamed events carrying a name, the aggregate
instance is the current name. -/

/-- Demo event payloads. -/
inductive TaskEvent where
  | created (name : String)
  | renamed (name : String)
deriving DecidableEq, Repr

/-- Runtime class name of a payload. -/
def taskClassName : TaskEvent → String
  | .created _ => "TaskCreated"
  | .renamed _ => "TaskRenamed"

/-- The name carried by a payload. -/
def taskEventName : TaskEvent → String
  | .created n => n
  | .renamed n => n

/-- Demo marshaller for the router: the data field is the name. -/
def taskDeserialize (t d : String) : Option (Metadata × TaskEvent) :=
  if t = "TaskCreated" then some ([], .created d)
  else if t = "TaskRenamed" then some ([], .renamed d)
  else none

/-- Demo state-rebuilding handlers: either event replaces the name. -/
def taskSRHandlers : List (StateRebuildingHandlerDef TaskEvent String) :=
  [{ instanceClassName := "Task", eventClassName := "TaskCreated",
     handler := fun _ e _ _ _ => .ok (taskEventName e) },
   { instanceClassName := "Task", eventClassName := "TaskRenamed",
     handler := fun _ e _ _ _ => .ok (taskEventName e) }]

/-- Demo handler for a plain creation command. -/
def createTaskDef : CommandHandlerDef TaskEvent String Unit Unit :=
  { commandClassName := "CreateTask", instanceClassName := "Task", sourcingMode := .LOCAL,
    handler := fun _ _ _ => .ok ((), []) }

/-- Demo handler that publishes two events in sequence from one call. -/
def createRenameDef : CommandHandlerDef TaskEvent String Unit Unit :=
  { commandClassName := "CreateAndRename", instanceClassName := "Task", sourcingMode := .LOCAL,
    handler := fun _ _ _ =>
      .ok ((), [⟨.created "a", [], []⟩, ⟨.renamed "b", [], []⟩]) }

/-- Demo handler declared without sourcing. -/
def noSourcingDef : CommandHandlerDef TaskEvent String Unit Unit :=
  { commandClassName := "NoSourcing", instanceClassName := "Task", sourcingMode := .NONE,
    handler := fun _ _ _ => .ok ((), []) }

/-- Demo command handlers. -/
def demoCommandHandlers : List (CommandHandlerDef TaskEvent String Unit Unit) :=
  [createTaskDef, createRenameDef, noSourcingDef]

/-- The demo router wiring. -/
def demoCfg : RouterConfig TaskEvent String Unit Unit :=
  { commandHandlers := demoCommandHandlers,
    stateRebuildingHandlers := taskSRHandlers,
    eventSource := "demo",
    upcasters := [],
    metadataPropagation := { mode := .NONE, keys := none },
    deserialize := taskDeserialize,
    payloadClassName := taskClassName,
    getEventType := taskClassName,
    serialize := fun _ p => taskEventName p }

/-- A stored creation event for /task/t1. -/
def ev1 : RawEvent :=
  { id := 1, type := "TaskCreated", source := "demo", subject := "/task/t1", time := 1,
    data := "a", metadata := [] }

/-- A stored rename event for /task/t1. -/
def ev2 : RawEvent :=
  { id := 2, type := "TaskRenamed", source := "demo", subject := "/task/t1", time := 2,
    data := "b", metadata := [] }

/-- A store already holding the creation event. -/
def demoStore1 : EventStore := { events := [ev1], idCounter := 2 }

/-- The empty store. -/
def emptyStore : EventStore := { events := [], idCounter := 0 }

/-- Demo marshaller for the processor (also returns the resolved event
class name). -/
def procDeserialize (t d : String) : Option (String × Metadata × TaskEvent) :=
  if t = "TaskCreated" then some ("TaskCreated", [], .created d)
  else if t = "TaskRenamed" then some ("TaskRenamed", [], .renamed d)
  else none

/-- A registered event handler that throws on every invocation. -/
def throwingHandlers : List (EventHandlerDef TaskEvent) :=
  [{ group := "g", eventClassName := "TaskCreated",
     handler := fun _ _ _ => .error "boom" }]

/-- Processor wiring with the always-throwing handler, defaults
maxRetries = 3 and retryDelay = 1000, everything mapped to
partition 0. -/
def procCfg : ProcessorConfig TaskEvent :=
  { group := "g", partition := 0, eventHandlers := throwingHandlers,
    partitionResolve := fun _ => 0,
    seqResolver := .forRawEvent (fun e => e.subject),
    upcasters := [],
    deserialize := procDeserialize,
    maxRetries := 3, retryDelay := 1000 }

/-- Processor wiring in which subject /task/t9 resolves to a foreign
partition. -/
def procCfg7 : ProcessorConfig TaskEvent :=
  { procCfg with partitionResolve := fun s => if s == "/task/t9" then 1 else 0 }

/-- An event owned by the foreign partition under procCfg7. -/
def ev9 : RawEvent :=
  { id := 9, type := "TaskCreated", source := "demo", subject := "/task/t9", time := 9,
    data := "z", metadata := [] }

/-- The initial processor state. -/
def initProc : ProcessorState :=
  { progressEventId := none, handlerCalls := [], sleeps := [], warns := [],
    permanentFailures := [] }

/-- The initial state of the two-caller cache interleaving: cold cache
entry, both calls not yet started. -/
def initConc : ConcurrentState String :=
  { shared := none, phase0 := .notStarted, phase1 := .notStarted, readLog := [] }

/-- A store with two events for the contended subject. -/
def demoStore2 : EventStore := { events := [ev1, ev2], idCounter := 3 }

/-- The alternating schedule: both callers fetch, then their streaming
reads alternate, then both write back. -/
def altSched : List Bool := [false, true, false, true, false, true, false, true]

/-- A demo upcaster migrating the v1 creation event type. -/
def renameUpcaster : EventUpcaster :=
  { canUpcast := fun e => e.type == "TaskCreatedV1",
    upcast := fun e => [{ type := "TaskCreated", data := e.data }] }

/-- Router wiring whose only state-rebuilding handler always throws. -/
def throwingSRCfg : RouterConfig TaskEvent String Unit Unit :=
  { demoCfg with stateRebuildingHandlers :=
      [{ instanceClassName := "Task", eventClassName := "TaskCreated",
         handler := fun _ _ _ _ _ => .error "sr-boom" }] }

/-- A creation command declaring SubjectCondition.NEW. -/
def c1cmdNew : Command Unit :=
  { className := "CreateTask", subject := "/task/t1", subjectCondition := some .NEW, data := () }

/-- A creation command declaring SubjectCondition.EXISTS. -/
def c1cmdExists : Command Unit :=
  { className := "CreateTask", subject := "/task/t1", subjectCondition := some .EXISTS,
    data := () }

/-- The two-event command with no declared condition. -/
def c4cmd : Command Unit :=
  { className := "CreateAndRename", subject := "/task/t1", subjectCondition := none, data := () }

/-- A sourcing-free command declaring SubjectCondition.EXISTS. -/
def c9cmdExists : Command Unit :=
  { className := "NoSourcing", subject := "/task/t1", subjectCondition := some .EXISTS,
    data := () }

/-- A sourcing-free command declaring SubjectCondition.NEW. -/
def c9cmdNew : Command Unit :=
  { className := "NoSourcing", subject := "/task/t1", subjectCondition := some .NEW, data := () }

/-! ## Theorems -/

/-- inheritsFrom is reflexive. -/
theorem inheritsFrom_rfl (e : RawEvent) : inheritsFrom e e :=
  ⟨rfl, rfl, rfl, rfl, rfl⟩

/-- inheritsFrom is transitive. -/
theorem inheritsFrom_trans {a b c : RawEvent} (h1 : inheritsFrom a b) (h2 : inheritsFrom b c) :
    inheritsFrom a c :=
  ⟨h1.1.trans h2.1, h1.2.1.trans h2.2.1, h1.2.2.1.trans h2.2.2.1,
   h1.2.2.2.1.trans h2.2.2.2.1, h1.2.2.2.2.trans h2.2.2.2.2⟩

/-- Outputs of a single upcaster application inherit the identity
fields of the input event. -/
theorem mem_applyUpcaster {u : EventUpcaster} {e e' : RawEvent} (h : e' ∈ applyUpcaster u e) :
    inheritsFrom e' e := by
  unfold applyUpcaster at h
  by_cases hc : u.canUpcast e = true
  · rw [if_pos hc] at h
    obtain ⟨r, _, hr⟩ := List.mem_map.mp h
    rw [← hr]
    exact ⟨rfl, rfl, rfl, rfl, rfl⟩
  · rw [if_neg hc] at h
    rw [List.mem_singleton.mp h]
    exact inheritsFrom_rfl e
/-- Outputs of one full pass come from some input of that pass. -/
theorem mem_upcastPass {es : List RawEvent} {u : EventUpcaster} {e' : RawEvent}
    (h : e' ∈ upcastPass es u) : ∃ e ∈ es, inheritsFrom e' e := by
  obtain ⟨e, he, hmem⟩ := List.mem_flatMap.mp h
  exact ⟨e, he, mem_applyUpcaster hmem⟩

/-- Outputs of the remaining chain come from some event of the current
result set. -/
theorem mem_foldl_upcastPass (chain : EventUpcasters) :
    ∀ (es : List RawEvent) (e' : RawEvent), e' ∈ chain.foldl upcastPass es →
      ∃ e ∈ es, inheritsFrom e' e := by
  induction chain with
  | nil => exact fun es e' h => ⟨e', h, inheritsFrom_rfl e'⟩
  | cons u t ih =>
    intro es e' h
    rw [List.foldl_cons] at h
    obtain ⟨m, hm, hinh⟩ := ih (upcastPass es u) e' h
    obtain ⟨e0, he0, hinh2⟩ := mem_upcastPass hm
    exact ⟨e0, he0, inheritsFrom_trans hinh hinh2⟩

/-- Every output of the whole chain inherits the identity fields of
the original event. -/
theorem mem_upcast_chain (chain : EventUpcasters) (e e' : RawEvent)
    (h : e' ∈ EventUpcasters.upcast chain e) : inheritsFrom e' e := by
  obtain ⟨e0, he0, hinh⟩ := mem_foldl_upcastPass chain [e] e' h
  rw [List.mem_singleton.mp he0] at hinh
  exact hinh

/-- An event no upcaster of the chain claims passes through unchanged. -/
theorem upcast_unclaimed (chain : EventUpcasters) (e : RawEvent)
    (h : ∀ u ∈ chain, u.canUpcast e = false) : EventUpcasters.upcast chain e = [e] := by
  induction chain with
  | nil => rfl
  | cons u t ih =>
    have hu : applyUpcaster u e = [e] := by
      unfold applyUpcaster
      rw [if_neg (by simp [h u (List.mem_cons_self u t)])]
    have hpass : upcastPass [e] u = [e] := by
      simp [upcastPass, hu]
    show List.foldl upcastPass (upcastPass [e] u) t = [e]
    rw [hpass]
    exact ih (fun x hx => h x (List.mem_cons_of_mem u hx))

/-- Claim C6: the upcaster chain applies upcasters in registration
order as full passes, each pass feeding the growing result set of the
previous pass into the next upcaster; an event that no upcaster in the
chain claims passes through unchanged; and every output event inherits
the input event id, subject, source and time, with only type and data
changed. -/
theorem c6_upcaster_chain_order :
    (∀ (chain : EventUpcasters) (u : EventUpcaster) (e : RawEvent),
        EventUpcasters.upcast (chain ++ [u]) e =
          upcastPass (EventUpcasters.upcast chain e) u)
    ∧ (∀ (chain : EventUpcasters) (e : RawEvent),
        (∀ u ∈ chain, u.canUpcast e = false) → EventUpcasters.upcast chain e = [e])
    ∧ (∀ (chain : EventUpcasters) (e e' : RawEvent), e' ∈ EventUpcasters.upcast chain e →
        e'.id = e.id ∧ e'.subject = e.subject ∧ e'.source = e.source ∧ e'.time = e.time) := by
  refine ⟨fun chain u e => ?_, upcast_unclaimed, fun chain e e' h => ?_⟩
  · unfold EventUpcasters.upcast
    rw [List.foldl_append]
    rfl
  · obtain ⟨h1, h2, h3, h4, _⟩ := mem_upcast_chain chain e e' h
    exact ⟨h1, h2, h3, h4⟩

/-- Witness for C6 at a concrete chain and event: the chain containing
only the v1 migration upcaster does not claim ev1, so ev1 passes
through unchanged and the output inherits all identity fields. -/
theorem c6_witness :
    EventUpcasters.upcast [renameUpcaster] ev1 = [ev1]
    ∧ (ev1.id = ev1.id ∧ ev1.subject = ev1.subject ∧ ev1.source = ev1.source
        ∧ ev1.time = ev1.time) := by
  have h := c6_upcaster_chain_order
  have hpass := h.2.1 [renameUpcaster] ev1 (by
    intro u hu
    rw [List.mem_singleton.mp hu]
    decide)
  refine ⟨hpass, h.2.2 [renameUpcaster] ev1 ev1 ?_⟩
  rw [hpass]
  exact List.mem_singleton.mpr rfl

set_option maxRecDepth 4096 in
/-- Claim C8: the default partition key resolver is a pure function of
the string (in this embedding it is a function, so two calls on the
same string are definitionally equal), its result lies in [0, n) for
every positive partition count n, and on partition count 10 the
sequence id /task/task-1 always resolves to the fixed value 4. -/
theorem c8_partition_resolver_range_and_stability (n : Nat) (s : String) (h : 0 < n) :
    DefaultPartitionKeyResolver.resolve n s < n
    ∧ DefaultPartitionKeyResolver.resolve 10 "/task/task-1" = 4 :=
  ⟨Nat.mod_lt _ h, by decide⟩

/-- Witness for C8 at a concrete partition count and string. -/
theorem c8_witness :
    0 < 10
    ∧ (DefaultPartitionKeyResolver.resolve 10 "/task/task-1" < 10
        ∧ DefaultPartitionKeyResolver.resolve 10 "/task/task-1" = 4) :=
  ⟨by decide, c8_partition_resolver_range_and_stability 10 "/task/task-1" (by decide)⟩

/-- Claim C10: during rebuild, a state-rebuilding handler that throws
on an event is caught: that upcasted event is skipped, the instance,
the current event id and the sourced-subject map keep their prior
values, and in particular the skipped event id is not recorded as the
replay position.  (The rebuild stream loop has no error channel at
all, so no such error can reach the caller of send.) -/
theorem c10_rebuild_handler_throw_skips {P I CD R : Type} (cfg : RouterConfig P I CD R)
    (icn : String) (st : RebuildSt I) (u : RawEvent) (meta : Metadata) (payload : P)
    (msg : String)
    (hdes : cfg.deserialize u.type u.data = some (meta, payload))
    (herr : applyStateRebuilding cfg icn st.inst payload meta u.subject (some u) = .error msg) :
    applyUpcasted cfg icn st u = st := by
  unfold applyUpcasted
  rw [hdes]
  simp only []
  rw [herr]

/-- Witness for C10: the throwing state-rebuilding handler leaves the
rebuild state untouched on the stored creation event. -/
theorem c10_witness :
    throwingSRCfg.deserialize ev1.type ev1.data = some ([], TaskEvent.created "a")
    ∧ applyStateRebuilding throwingSRCfg "Task" (none : Option String)
        (TaskEvent.created "a") [] ev1.subject (some ev1) = .error "sr-boom"
    ∧ applyUpcasted throwingSRCfg "Task" (⟨none, none, []⟩ : RebuildSt String) ev1 =
        (⟨none, none, []⟩ : RebuildSt String) :=
  ⟨rfl, rfl,
   c10_rebuild_handler_throw_skips throwingSRCfg "Task" ⟨none, none, []⟩ ev1 []
     (TaskEvent.created "a") "sr-boom" rfl rfl⟩

/-- Claim C7: an observed raw event whose raw-level resolved partition
differs from the configured partition invokes no event handler, but
progress for the processor is still advanced to the event id before
the next event of the stream is considered. -/
theorem c7_foreign_partition_advances_progress {P : Type} (cfg : ProcessorConfig P)
    (st : ProcessorState) (e : RawEvent) (rest : List RawEvent)
    (hpart : cfg.partitionResolve (resolveSequenceId cfg.seqResolver e none e) ≠ cfg.partition) :
    handleObserved cfg st e = { st with progressEventId := some e.id }
    ∧ (handleObserved cfg st e).handlerCalls = st.handlerCalls
    ∧ runObserved cfg st (e :: rest) =
        runObserved cfg { st with progressEventId := some e.id } rest := by
  have h1 : handleObserved cfg st e = { st with progressEventId := some e.id } := by
    unfold handleObserved
    rw [if_pos hpart]
  refine ⟨h1, by rw [h1], ?_⟩
  unfold runObserved
  rw [List.foldl_cons, h1]

/-- Witness for C7: under procCfg7 the event for /task/t9 resolves to
partition 1 while the processor owns partition 0; no handler runs and
progress moves to id 9. -/
theorem c7_witness :
    procCfg7.partitionResolve (resolveSequenceId procCfg7.seqResolver ev9 none ev9) ≠
        procCfg7.partition
    ∧ handleObserved procCfg7 initProc ev9 = { initProc with progressEventId := some 9 }
    ∧ runObserved procCfg7 initProc [ev9, ev1] =
        runObserved procCfg7 { initProc with progressEventId := some 9 } [ev1] := by
  have h := c7_foreign_partition_advances_progress procCfg7 initProc ev9 [ev1] (by decide)
  exact ⟨by decide, h.1, h.2.2⟩

/-- invokeHandlers never sleeps. -/
theorem invokeHandlers_sleeps {P : Type} (hs : List (EventHandlerDef P)) (payload : P)
    (meta : Metadata) (u : RawEvent) :
    ∀ st : ProcessorState, (invokeHandlers hs payload meta u st).1.sleeps = st.sleeps := by
  induction hs with
  | nil => intro st; rfl
  | cons h t ih =>
    intro st
    unfold invokeHandlers
    cases h.handler payload meta u with
    | ok _ => exact ih _
    | error _ => rfl

/-- Processing one upcast result never sleeps. -/
theorem processUpcasted_sleeps {P : Type} (cfg : ProcessorConfig P) (st : ProcessorState)
    (u : RawEvent) : (processUpcasted cfg st u).sleeps = st.sleeps := by
  unfold processUpcasted
  split
  · rfl
  · rename_i cmp heq0
    split
    · rename_i st1 heq
      have hs := invokeHandlers_sleeps (handlersFor cfg cmp.1) cmp.2.2 cmp.2.1 u st
      rw [heq] at hs
      dsimp only
      split
      · rfl
      · exact hs
    · rename_i st1 msg heq
      have hs := invokeHandlers_sleeps (handlersFor cfg cmp.1) cmp.2.2 cmp.2.1 u st
      rw [heq] at hs
      dsimp only
      split
      · rfl
      · exact hs

/-- The per-event upcast fold never sleeps. -/
theorem foldl_processUpcasted_sleeps {P : Type} (cfg : ProcessorConfig P)
    (us : List RawEvent) :
    ∀ st : ProcessorState, (us.foldl (processUpcasted cfg) st).sleeps = st.sleeps := by
  induction us with
  | nil => intro st; rfl
  | cons u t ih =>
    intro st
    rw [List.foldl_cons]
    rw [ih (processUpcasted cfg st u), processUpcasted_sleeps]

/-- Claim C2, counterexample: with the default maxRetries = 3 and
retryDelay = 1000 and a registered handler that throws on every
invocation, processing the event performs a single attempt with a
single handler invocation and no backoff sleeps (the throw is caught
inside the per-upcast-result try/catch, so the retry loop never sees
it), instead of the claimed maxRetries attempts with delays 1000 and
2000; progress still advances to the event id. -/
theorem c2_counterexample :
    (processEventWithRetry procCfg ev1 initProc).handlerCalls.length = 1
    ∧ (processEventWithRetry procCfg ev1 initProc).sleeps = []
    ∧ (processEventWithRetry procCfg ev1 initProc).warns = [1]
    ∧ (processEventWithRetry procCfg ev1 initProc).progressEventId = some 1
    ∧ ¬((processEventWithRetry procCfg ev1 initProc).handlerCalls.length = procCfg.maxRetries
        ∧ (processEventWithRetry procCfg ev1 initProc).sleeps =
            [procCfg.retryDelay, procCfg.retryDelay * 2]) := by
  decide

/-- Claim C2, amended: a handler throw is caught and logged inside the
per-upcast-result try/catch of processEvent, so processing the raw
event completes on the first attempt: whenever maxRetries is at least
one, processEventWithRetry equals a single processEvent run, no
backoff sleep is recorded, progress is advanced to the event id, and
the main loop goes on to process the subsequent events.  (The retry
loop with delays retryDelay * 2^(attempt-1) only governs errors that
escape processEvent, such as progress tracker failures.) -/
theorem c2_amended_single_attempt {P : Type} (cfg : ProcessorConfig P) (st : ProcessorState)
    (e : RawEvent) (rest : List RawEvent) (hmax : 1 ≤ cfg.maxRetries) :
    processEventWithRetry cfg e st = (processEvent cfg st e).1
    ∧ (processEventWithRetry cfg e st).sleeps = st.sleeps
    ∧ (processEventWithRetry cfg e st).progressEventId = some e.id
    ∧ runObserved cfg st (e :: rest) = runObserved cfg (handleObserved cfg st e) rest := by
  obtain ⟨n, hn⟩ : ∃ n, cfg.maxRetries = n + 1 :=
    ⟨cfg.maxRetries - 1, by omega⟩
  have h1 : processEventWithRetry cfg e st = (processEvent cfg st e).1 := by
    unfold processEventWithRetry
    rw [hn]
    rfl
  refine ⟨h1, ?_, ?_, rfl⟩
  · rw [h1]
    show ((EventUpcasters.upcast cfg.upcasters e).foldl (processUpcasted cfg) st).sleeps = st.sleeps
    exact foldl_processUpcasted_sleeps cfg _ st
  · rw [h1]
    rfl

/-- Witness for the amended C2 on the concrete throwing-handler
processor: the single attempt leaves one handler call, one warning, no
sleep, and progress at the event id, and the next event is processed. -/
theorem c2_amended_witness :
    1 ≤ procCfg.maxRetries
    ∧ (processEventWithRetry procCfg ev1 initProc = (processEvent procCfg initProc ev1).1
        ∧ (processEventWithRetry procCfg ev1 initProc).sleeps = initProc.sleeps
        ∧ (processEventWithRetry procCfg ev1 initProc).progressEventId = some ev1.id
        ∧ runObserved procCfg initProc [ev1, ev2] =
            runObserved procCfg (handleObserved procCfg initProc ev1) [ev2]) :=
  ⟨by decide, c2_amended_single_attempt procCfg initProc ev1 [ev2] (by decide)⟩

/-- Claim C5: evidence of the violation.  Two concurrent fetchAndMerge
calls for the same key against a store with two historical events,
interleaved at their await points by the alternating schedule: both
callers observe the cold entry (the second because the first deleted
the key before its merge finished), both stream the full two-event
history, and their streaming reads interleave read-for-read — the log
switches caller three times, and four reads happen where one full pass
of two reads was claimed per generation. -/
theorem c5_interleaving_demo :
    (runSchedule demoCfg demoStore2 "/task/t1" "Task" true initConc altSched).readLog =
      [(false, 1), (true, 1), (false, 2), (true, 2)]
    ∧ switchCount
        (runSchedule demoCfg demoStore2 "/task/t1" "Task" true initConc altSched).readLog = 3
    ∧ (runSchedule demoCfg demoStore2 "/task/t1" "Task" true initConc altSched).phase0 =
        TaskPhase.finished
    ∧ (runSchedule demoCfg demoStore2 "/task/t1" "Task" true initConc altSched).phase1 =
        TaskPhase.finished
    ∧ ¬(switchCount
          (runSchedule demoCfg demoStore2 "/task/t1" "Task" true initConc altSched).readLog ≤ 1) := by
  decide

/-- Claim C1: a command declaring SubjectCondition.NEW whose rebuild
found a prior event (lastEventId not null) makes send fail with the
must-be-new error, with the command handler never invoked and the
store unchanged (no events published); symmetrically a command
declaring EXISTS whose rebuild found no prior event fails with the
must-exist error, handler not invoked, store unchanged; and for
SubjectCondition.NONE the validation performs no check at all. -/
theorem c1_subject_condition_gates_send {P I CD R : Type} (cfg : RouterConfig P I CD R) :
    (∀ (store : EventStore) (cache : StateCache I) (command : Command CD)
        (metadata : Metadata) (defn : CommandHandlerDef P I CD R),
        lookupLast (fun d => d.commandClassName) cfg.commandHandlers command.className =
            some defn →
        command.subjectCondition = some .NEW →
        (rebuildState cfg store cache command.subject defn.instanceClassName
            defn.sourcingMode).2.1 ≠ none →
        send cfg store cache command metadata =
          { result := .error (.subjectMustBeNew command.subject), store := store,
            cache := (rebuildState cfg store cache command.subject defn.instanceClassName
              defn.sourcingMode).2.2,
            handlerInvoked := false, localReplay := none })
    ∧ (∀ (store : EventStore) (cache : StateCache I) (command : Command CD)
        (metadata : Metadata) (defn : CommandHandlerDef P I CD R),
        lookupLast (fun d => d.commandClassName) cfg.commandHandlers command.className =
            some defn →
        command.subjectCondition = some .EXISTS →
        (rebuildState cfg store cache command.subject defn.instanceClassName
            defn.sourcingMode).2.1 = none →
        send cfg store cache command metadata =
          { result := .error (.subjectMustExist command.subject), store := store,
            cache := (rebuildState cfg store cache command.subject defn.instanceClassName
              defn.sourcingMode).2.2,
            handlerInvoked := false, localReplay := none })
    ∧ (∀ (subject : String) (l : Option Nat),
        validateSubjectCondition subject .NONE l = .ok ()) := by
  refine ⟨?_, ?_, fun subject l => rfl⟩
  · intro store cache command metadata defn hdef hcond hne
    have hval : validateSubjectCondition command.subject
        (command.subjectCondition.getD .NONE)
        (rebuildState cfg store cache command.subject defn.instanceClassName
          defn.sourcingMode).2.1 = .error (.subjectMustBeNew command.subject) := by
      rw [hcond]
      show validateSubjectCondition _ SubjectCondition.NEW _ = _
      unfold validateSubjectCondition
      rw [if_pos rfl, if_pos hne]
    unfold send
    rw [hdef]
    dsimp only
    rw [hval]
  · intro store cache command metadata defn hdef hcond heq
    have hval : validateSubjectCondition command.subject
        (command.subjectCondition.getD .NONE)
        (rebuildState cfg store cache command.subject defn.instanceClassName
          defn.sourcingMode).2.1 = .error (.subjectMustExist command.subject) := by
      rw [hcond]
      show validateSubjectCondition _ SubjectCondition.EXISTS _ = _
      unfold validateSubjectCondition
      rw [if_neg (by decide), if_pos rfl, if_pos heq]
    unfold send
    rw [hdef]
    dsimp only
    rw [hval]

/-- Witness for C1: against a store already holding an event for
/task/t1 the NEW-declaring command is rejected with nothing published,
and against the empty store the EXISTS-declaring command is rejected
with nothing published. -/
theorem c1_witness :
    send demoCfg demoStore1 .noCache c1cmdNew [] =
      { result := .error (.subjectMustBeNew "/task/t1"), store := demoStore1,
        cache := .noCache, handlerInvoked := false, localReplay := none }
    ∧ send demoCfg emptyStore .noCache c1cmdExists [] =
      { result := .error (.subjectMustExist "/task/t1"), store := emptyStore,
        cache := .noCache, handlerInvoked := false, localReplay := none } := by
  have h := c1_subject_condition_gates_send demoCfg
  exact ⟨h.1 demoStore1 .noCache c1cmdNew [] createTaskDef rfl rfl (by decide),
         h.2.1 emptyStore .noCache c1cmdExists [] createTaskDef rfl rfl (by decide)⟩

/-- Claim C9: a command handler definition declaring SourcingMode.NONE
skips rebuild entirely (no instance, no last event id, cache
untouched, for every store); hence such a command declaring
SubjectCondition.EXISTS always fails regardless of the events in the
store, and such a command declaring SubjectCondition.NEW always passes
the condition check and reaches the command handler even when prior
events exist for its subject. -/
theorem c9_sourcing_none_condition_interaction {P I CD R : Type} (cfg : RouterConfig P I CD R) :
    (∀ (store : EventStore) (cache : StateCache I) (subject icn : String),
        rebuildState cfg store cache subject icn .NONE = (none, none, cache))
    ∧ (∀ (store : EventStore) (cache : StateCache I) (command : Command CD)
        (metadata : Metadata) (defn : CommandHandlerDef P I CD R),
        lookupLast (fun d => d.commandClassName) cfg.commandHandlers command.className =
            some defn →
        defn.sourcingMode = .NONE →
        command.subjectCondition = some .EXISTS →
        send cfg store cache command metadata =
          { result := .error (.subjectMustExist command.subject), store := store,
            cache := cache, handlerInvoked := false, localReplay := none })
    ∧ (∀ (store : EventStore) (cache : StateCache I) (command : Command CD)
        (metadata : Metadata) (defn : CommandHandlerDef P I CD R),
        lookupLast (fun d => d.commandClassName) cfg.commandHandlers command.className =
            some defn →
        defn.sourcingMode = .NONE →
        command.subjectCondition = some .NEW →
        (send cfg store cache command metadata).handlerInvoked = true) := by
  refine ⟨fun store cache subject icn => rfl, ?_, ?_⟩
  · intro store cache command metadata defn hdef hmode hcond
    have hreb : rebuildState cfg store cache command.subject defn.instanceClassName
        defn.sourcingMode = (none, none, cache) := by
      rw [hmode]
      exact rfl
    have hval : validateSubjectCondition command.subject
        (command.subjectCondition.getD .NONE) (none : Option Nat) =
        .error (.subjectMustExist command.subject) := by
      rw [hcond]
      exact rfl
    unfold send
    rw [hdef]
    dsimp only
    rw [hreb]
    dsimp only
    rw [hval]
  · intro store cache command metadata defn hdef hmode hcond
    have hreb : rebuildState cfg store cache command.subject defn.instanceClassName
        defn.sourcingMode = (none, none, cache) := by
      rw [hmode]
      exact rfl
    have hval : validateSubjectCondition command.subject
        (command.subjectCondition.getD .NONE) (none : Option Nat) = .ok () := by
      rw [hcond]
      exact rfl
    unfold send
    rw [hdef]
    dsimp only
    rw [hreb]
    dsimp only
    rw [hval]
    dsimp only
    split
    · rfl
    · split
      · rfl
      · split
        · rfl
        · split
          · rfl
          · rfl

/-- Witness for C9: with the prior event in the store the sourcing-free
EXISTS command still fails, and the sourcing-free NEW command still
reaches its handler. -/
theorem c9_witness :
    rebuildState demoCfg demoStore1 .noCache "/task/t1" "Task" .NONE =
      ((none : Option String), (none : Option Nat), StateCache.noCache)
    ∧ send demoCfg demoStore1 .noCache c9cmdExists [] =
      { result := .error (.subjectMustExist "/task/t1"), store := demoStore1,
        cache := .noCache, handlerInvoked := false, localReplay := none }
    ∧ (send demoCfg demoStore1 .noCache c9cmdNew []).handlerInvoked = true := by
  have h := c9_sourcing_none_condition_interaction demoCfg
  exact ⟨h.1 demoStore1 .noCache "/task/t1" "Task",
         h.2.1 demoStore1 .noCache c9cmdExists [] noSourcingDef rfl rfl rfl,
         h.2.2 demoStore1 .noCache c9cmdNew [] noSourcingDef rfl rfl rfl⟩

/-- Claim C4, counterexample: one send whose handler publishes a
creation event followed by a rename event does fold the local replay
in publish order (the final replayed value is the renamed state), but
that final replayed state does not end up cached: the cache entry
written by this send is the pre-command rebuild checkpoint (here the
empty cold checkpoint), not the renamed state. -/
theorem c4_counterexample :
    (send demoCfg emptyStore (.inMemory ⟨[], 1000⟩) c4cmd []).result = .ok ()
    ∧ (send demoCfg emptyStore (.inMemory ⟨[], 1000⟩) c4cmd []).localReplay =
        some (some "b")
    ∧ (send demoCfg emptyStore (.inMemory ⟨[], 1000⟩) c4cmd []).cache.lookup
        (buildKey "/task/t1" "Task" .LOCAL) =
        some { eventId := none, inst := none, sourcedSubjectIds := [] } :=
  ⟨rfl, rfl, rfl⟩

/-- Claim C4, amended: the local replay of the buffered events is
folded in publish order, so the replay of the second buffered event
receives the instance produced by replaying the first; the resulting
replayed state however is discarded rather than cached: for every send
that finds its handler, the cache after the call is exactly the cache
left by the rebuild step, regardless of the published events. -/
theorem c4_replay_order_but_not_cached {P I CD R : Type} (cfg : RouterConfig P I CD R) :
    (∀ (icn subject : String) (inst : Option I) (c1 : CapturedEvent P)
        (cs : List (CapturedEvent P)),
        localReplayFold cfg icn subject inst (c1 :: cs) =
          (applyStateRebuilding cfg icn inst c1.payload c1.metadata subject none) >>=
            (fun i1 => localReplayFold cfg icn subject i1 cs))
    ∧ (∀ (store : EventStore) (cache : StateCache I) (command : Command CD)
        (metadata : Metadata) (defn : CommandHandlerDef P I CD R),
        lookupLast (fun d => d.commandClassName) cfg.commandHandlers command.className =
            some defn →
        (send cfg store cache command metadata).cache =
          (rebuildState cfg store cache command.subject defn.instanceClassName
            defn.sourcingMode).2.2) := by
  constructor
  · intro icn subject inst c1 cs
    rfl
  · intro store cache command metadata defn hdef
    unfold send
    rw [hdef]
    dsimp only
    split
    · rfl
    · split
      · rfl
      · split
        · rfl
        · split
          · rfl
          · split
            · rfl
            · rfl

/-- Witness for C4 amended: the two-event demo command replays to the
renamed state in publish order while the cache keeps the rebuild
checkpoint of the empty store. -/
theorem c4_witness :
    localReplayFold demoCfg "Task" "/task/t1" none
        [⟨TaskEvent.created "a", [], []⟩, ⟨TaskEvent.renamed "b", [], []⟩] = .ok (some "b")
    ∧ (send demoCfg emptyStore .noCache c4cmd []).cache = .noCache := by
  have h := c4_replay_order_but_not_cached demoCfg
  constructor
  · rw [h.1 "Task" "/task/t1" none ⟨TaskEvent.created "a", [], []⟩
        [⟨TaskEvent.renamed "b", [], []⟩]]
    rfl
  · exact (h.2 emptyStore .noCache c4cmd [] createRenameDef rfl).trans rfl

/-- optLtB is monotone in its second argument. -/
theorem optLtB_trans_lt {b : Option Nat} {x y : Nat} (h : optLtB b x = true) (hxy : x < y) :
    optLtB b y = true := by
  cases b with
  | none => rfl
  | some a =>
    simp only [optLtB, Nat.blt_eq] at h ⊢
    omega

/-- Unfolding of idsIncrB on a cons cell. -/
theorem idsIncrB_cons {b : Option Nat} {e : RawEvent} {l : List RawEvent} :
    idsIncrB b (e :: l) = true ↔
      (optLtB b e.id = true ∧ idsIncrB (some e.id) l = true) := by
  simp [idsIncrB, Bool.and_eq_true]

/-- A strictly increasing tail bound can be weakened below the head. -/
theorem idsIncrB_weaken {a : Nat} {b : Option Nat} {l : List RawEvent}
    (h : idsIncrB (some a) l = true) (hba : optLtB b a = true) : idsIncrB b l = true := by
  cases l with
  | nil => rfl
  | cons e t =>
    rw [idsIncrB_cons] at h ⊢
    refine ⟨optLtB_trans_lt hba ?_, h.2⟩
    simpa [optLtB, Nat.blt_eq] using h.1

/-- Every id of a strictly increasing list lies above the bound. -/
theorem idsIncrB_allGt {b : Option Nat} {l : List RawEvent} (h : idsIncrB b l = true) :
    ∀ e ∈ l, optLtB b e.id = true := by
  induction l generalizing b with
  | nil => intro e he; cases he
  | cons a t ih =>
    rw [idsIncrB_cons] at h
    intro e he
    rcases List.mem_cons.mp he with rfl | he
    · exact h.1
    · exact ih (idsIncrB_weaken h.2 h.1) e he

/-- The left part of a strictly increasing concatenation. -/
theorem idsIncrB_append_left {b : Option Nat} {l1 l2 : List RawEvent}
    (h : idsIncrB b (l1 ++ l2) = true) : idsIncrB b l1 = true := by
  induction l1 generalizing b with
  | nil => rfl
  | cons e t ih =>
    rw [List.cons_append, idsIncrB_cons] at h
    rw [idsIncrB_cons]
    exact ⟨h.1, ih h.2⟩

/-- Every id of the left part of a strictly increasing concatenation
is below every id of the right part. -/
theorem idsIncrB_append_cross {b : Option Nat} {l1 l2 : List RawEvent}
    (h : idsIncrB b (l1 ++ l2) = true) :
    ∀ a ∈ l1, ∀ c ∈ l2, a.id < c.id := by
  induction l1 generalizing b with
  | nil => intro a ha; cases ha
  | cons e t ih =>
    rw [List.cons_append, idsIncrB_cons] at h
    intro a ha c hc
    rcases List.mem_cons.mp ha with rfl | ha
    · have := idsIncrB_allGt h.2 c (List.mem_append_right t hc)
      simpa [optLtB, Nat.blt_eq] using this
    · exact ih h.2 a ha c hc

/-- Filtering preserves strictly increasing ids above a bound. -/
theorem idsIncrB_filter {b : Option Nat} {l : List RawEvent} (p : RawEvent → Bool)
    (h : idsIncrB b l = true) : idsIncrB b (l.filter p) = true := by
  induction l generalizing b with
  | nil => rfl
  | cons e t ih =>
    rw [idsIncrB_cons] at h
    by_cases hp : p e = true
    · rw [List.filter_cons_of_pos hp, idsIncrB_cons]
      exact ⟨h.1, ih h.2⟩
    · rw [List.filter_cons_of_neg (by simpa using hp)]
      exact idsIncrB_weaken (ih h.2) h.1

/-- A filter that holds on every element is the identity. -/
theorem filter_eq_self_of_all {l : List RawEvent} {p : RawEvent → Bool}
    (h : ∀ e ∈ l, p e = true) : l.filter p = l :=
  List.filter_eq_self.mpr h

/-- Unfolding foldRS on nil. -/
theorem foldRS_nil {P I CD R : Type} (cfg : RouterConfig P I CD R) (icn : String)
    (st : RebuildSt I) : foldRS cfg icn st [] = st := rfl

/-- Unfolding foldRS on a cons cell. -/
theorem foldRS_cons {P I CD R : Type} (cfg : RouterConfig P I CD R) (icn : String)
    (st : RebuildSt I) (e : RawEvent) (t : List RawEvent) :
    foldRS cfg icn st (e :: t) = foldRS cfg icn (rebuildStep cfg icn st e) t := rfl

/-- foldRS distributes over append. -/
theorem foldRS_append {P I CD R : Type} (cfg : RouterConfig P I CD R) (icn : String)
    (st : RebuildSt I) (l1 l2 : List RawEvent) :
    foldRS cfg icn st (l1 ++ l2) = foldRS cfg icn (foldRS cfg icn st l1) l2 :=
  List.foldl_append (rebuildStep cfg icn) st l1 l2

/-- One upcasted event either leaves the rebuild state untouched or
records exactly its id as the new replay position. -/
theorem applyUpcasted_eq_or_eid {P I CD R : Type} (cfg : RouterConfig P I CD R) (icn : String)
    (st : RebuildSt I) (u : RawEvent) :
    applyUpcasted cfg icn st u = st ∨ (applyUpcasted cfg icn st u).eid = some u.id := by
  unfold applyUpcasted
  split
  · exact Or.inl rfl
  · split
    · exact Or.inl rfl
    · exact Or.inr rfl

/-- Folding upcast results that all carry the same id either leaves the
state untouched or records that id. -/
theorem foldl_applyUpcasted_eq_or_eid {P I CD R : Type} (cfg : RouterConfig P I CD R)
    (icn : String) (x : Nat) :
    ∀ (us : List RawEvent), (∀ u ∈ us, u.id = x) → ∀ st : RebuildSt I,
      us.foldl (applyUpcasted cfg icn) st = st ∨
        (us.foldl (applyUpcasted cfg icn) st).eid = some x := by
  intro us
  induction us with
  | nil => exact fun _ st => Or.inl rfl
  | cons u t ih =>
    intro h st
    rw [List.foldl_cons]
    rcases applyUpcasted_eq_or_eid cfg icn st u with h1 | h1
    · rw [h1]
      exact ih (fun v hv => h v (List.mem_cons_of_mem u hv)) st
    · rcases ih (fun v hv => h v (List.mem_cons_of_mem u hv)) (applyUpcasted cfg icn st u)
        with h2 | h2
      · right
        rw [h2, h1, h u (List.mem_cons_self u t)]
      · exact Or.inr h2

/-- One raw event of the rebuild stream either leaves the state
untouched or records exactly the raw event id (its upcast results all
inherit that id). -/
theorem rebuildStep_eq_or_eid {P I CD R : Type} (cfg : RouterConfig P I CD R) (icn : String)
    (st : RebuildSt I) (e : RawEvent) :
    rebuildStep cfg icn st e = st ∨ (rebuildStep cfg icn st e).eid = some e.id := by
  unfold rebuildStep
  exact foldl_applyUpcasted_eq_or_eid cfg icn e.id _
    (fun u hu => (mem_upcast_chain cfg.upcasters e u hu).1) st

/-- The replay position after a rebuild fold is either the starting
position or the id of some event of the stream. -/
theorem foldRS_eid_cases {P I CD R : Type} (cfg : RouterConfig P I CD R) (icn : String) :
    ∀ (l : List RawEvent) (st : RebuildSt I),
      (foldRS cfg icn st l).eid = st.eid ∨
        ∃ e ∈ l, (foldRS cfg icn st l).eid = some e.id := by
  intro l
  induction l with
  | nil => exact fun st => Or.inl rfl
  | cons e t ih =>
    intro st
    rw [foldRS_cons]
    rcases ih (rebuildStep cfg icn st e) with h2 | h2
    · rcases rebuildStep_eq_or_eid cfg icn st e with h1 | h1
      · left
        rw [h2, h1]
      · right
        exact ⟨e, List.mem_cons_self e t, by rw [h2, h1]⟩
    · obtain ⟨x, hx, hxe⟩ := h2
      exact Or.inr ⟨x, List.mem_cons_of_mem e hx, hxe⟩

/-- When the replay position did not move over a stream whose ids all
lie above it, the whole fold was a no-op. -/
theorem foldRS_eq_self_of_eid_eq {P I CD R : Type} (cfg : RouterConfig P I CD R) (icn : String) :
    ∀ (l : List RawEvent) (st : RebuildSt I),
      (∀ e ∈ l, optLtB st.eid e.id = true) →
      (foldRS cfg icn st l).eid = st.eid → foldRS cfg icn st l = st := by
  intro l
  induction l with
  | nil => intro st _ _; rfl
  | cons e t ih =>
    intro st hgt heid
    rw [foldRS_cons] at heid ⊢
    rcases rebuildStep_eq_or_eid cfg icn st e with h1 | h1
    · rw [h1] at heid ⊢
      exact ih st (fun x hx => hgt x (List.mem_cons_of_mem e hx)) heid
    · exfalso
      rcases foldRS_eid_cases cfg icn t (rebuildStep cfg icn st e) with h2 | h2
      · have hst : st.eid = some e.id := by rw [← heid, h2, h1]
        have hlt := hgt e (List.mem_cons_self e t)
        rw [hst] at hlt
        simp [optLtB, Nat.blt_eq] at hlt
      · obtain ⟨x, hx, hxe⟩ := h2
        have hst : st.eid = some x.id := by rw [← heid, hxe]
        have hlt := hgt x (List.mem_cons_of_mem e hx)
        rw [hst] at hlt
        simp [optLtB, Nat.blt_eq] at hlt

/-- optLtB on a some bound means strictly below. -/
theorem lt_of_optLtB_some {b x : Nat} (h : optLtB (some b) x = true) : b < x := by
  simpa [optLtB, Nat.blt_eq] using h

/-- optLtB is false at or below a some bound. -/
theorem optLtB_some_false {y x : Nat} (h : x ≤ y) : optLtB (some y) x = false := by
  cases hb : Nat.blt y x with
  | false => exact hb
  | true =>
    exfalso
    have : y < x := by simpa [Nat.blt_eq] using hb
    omega

/-- Filtering a cons whose head satisfies the predicate. -/
theorem filter_cons_true (p : RawEvent → Bool) {e : RawEvent} (t : List RawEvent)
    (h : p e = true) : (e :: t).filter p = e :: t.filter p := by
  simp [List.filter_cons, h]

/-- Filtering a cons whose head fails the predicate. -/
theorem filter_cons_false (p : RawEvent → Bool) {e : RawEvent} (t : List RawEvent)
    (h : p e = false) : (e :: t).filter p = t.filter p := by
  simp [List.filter_cons, h]

/-- Unfolding applyLowerBound at a concrete bound with the exclusive
flag the router passes. -/
theorem applyLowerBound_some (l : List RawEvent) (b : Nat) :
    applyLowerBound l (some b) false =
      match l.findIdx? (fun e => e.id == b) with
      | none => l
      | some i => l.drop (i + 1) := rfl

/-- Replaying the not-yet-recorded suffix of an already folded stream
is a no-op: folding, over the final state, the events of the stream
whose ids lie strictly above the final replay position reproduces the
final state unchanged. -/
theorem foldRS_replay_noop {P I CD R : Type} (cfg : RouterConfig P I CD R) (icn : String) :
    ∀ (l : List RawEvent) (st : RebuildSt I),
      idsIncrB st.eid l = true →
      foldRS cfg icn (foldRS cfg icn st l)
        (l.filter (fun e => optLtB (foldRS cfg icn st l).eid e.id)) = foldRS cfg icn st l := by
  intro l
  induction l with
  | nil => intro st _; rfl
  | cons e t ih =>
    intro st hinc
    rw [idsIncrB_cons] at hinc
    rcases rebuildStep_eq_or_eid cfg icn st e with h1 | h1
    · rw [foldRS_cons, h1]
      rcases foldRS_eid_cases cfg icn t st with h2 | h2
      · have hallgt : ∀ x ∈ t, optLtB st.eid x.id = true := fun x hx =>
          optLtB_trans_lt hinc.1 (lt_of_optLtB_some (idsIncrB_allGt hinc.2 x hx))
        have hself : foldRS cfg icn st t = st :=
          foldRS_eq_self_of_eid_eq cfg icn t st hallgt h2
        rw [hself]
        rw [filter_cons_true (fun x => optLtB st.eid x.id) t hinc.1]
        rw [foldRS_cons, h1]
        have hih := ih st (idsIncrB_weaken hinc.2 hinc.1)
        rw [hself] at hih
        exact hih
      · obtain ⟨x, hx, hxe⟩ := h2
        have hlt : e.id < x.id := lt_of_optLtB_some (idsIncrB_allGt hinc.2 x hx)
        have htest : optLtB (foldRS cfg icn st t).eid e.id = false := by
          rw [hxe]
          exact optLtB_some_false (by omega)
        rw [filter_cons_false (fun x => optLtB (foldRS cfg icn st t).eid x.id) t htest]
        exact ih st (idsIncrB_weaken hinc.2 hinc.1)
    · rw [foldRS_cons]
      have hy : ∃ y, (foldRS cfg icn (rebuildStep cfg icn st e) t).eid = some y ∧ e.id ≤ y := by
        rcases foldRS_eid_cases cfg icn t (rebuildStep cfg icn st e) with h2 | h2
        · exact ⟨e.id, by rw [h2, h1], Nat.le_refl _⟩
        · obtain ⟨x, hx, hxe⟩ := h2
          have hlt : e.id < x.id := lt_of_optLtB_some (idsIncrB_allGt hinc.2 x hx)
          exact ⟨x.id, hxe, by omega⟩
      obtain ⟨y, hye, hley⟩ := hy
      have htest : optLtB (foldRS cfg icn (rebuildStep cfg icn st e) t).eid e.id = false := by
        rw [hye]
        exact optLtB_some_false hley
      rw [filter_cons_false
        (fun x => optLtB (foldRS cfg icn (rebuildStep cfg icn st e) t).eid x.id) t htest]
      exact ih (rebuildStep cfg icn st e) (by rw [h1]; exact hinc.2)

/-- On a stream with strictly increasing ids in which the bound occurs,
the findIdx-and-slice semantics of the adapter equals keeping exactly
the events with ids above the bound. -/
theorem applyLowerBound_eq_filter :
    ∀ (l : List RawEvent) (y : Nat), idsIncrB none l = true → (∃ x ∈ l, x.id = y) →
      applyLowerBound l (some y) false = l.filter (fun e => optLtB (some y) e.id) := by
  intro l
  induction l with
  | nil =>
    intro y _ hex
    obtain ⟨x, hx, _⟩ := hex
    cases hx
  | cons e t ih =>
    intro y hinc hex
    rw [idsIncrB_cons] at hinc
    by_cases hey : e.id = y
    · have hfind : (e :: t).findIdx? (fun x => x.id == y) = some 0 := by
        rw [List.findIdx?_cons, if_pos (by simp [hey])]
      rw [applyLowerBound_some, hfind]
      have htest : optLtB (some y) e.id = false := optLtB_some_false (Nat.le_of_eq hey)
      rw [filter_cons_false (fun x => optLtB (some y) x.id) t htest]
      have hall : ∀ x ∈ t, optLtB (some y) x.id = true := by
        intro x hx
        have hgt := idsIncrB_allGt hinc.2 x hx
        rw [hey] at hgt
        exact hgt
      rw [filter_eq_self_of_all hall]
      exact rfl
    · have hxt : ∃ x ∈ t, x.id = y := by
        obtain ⟨x, hx, hxy⟩ := hex
        rcases List.mem_cons.mp hx with rfl | hx
        · exact absurd hxy hey
        · exact ⟨x, hx, hxy⟩
      have hlty : e.id < y := by
        obtain ⟨x, hx, hxy⟩ := hxt
        have := lt_of_optLtB_some (idsIncrB_allGt hinc.2 x hx)
        omega
      have htest : optLtB (some y) e.id = false := optLtB_some_false (Nat.le_of_lt hlty)
      rw [applyLowerBound_some, List.findIdx?_cons, if_neg (by simp [hey]),
        List.findIdx?_succ]
      rcases hft : t.findIdx? (fun x => x.id == y) with _ | j
      · exfalso
        obtain ⟨x, hx, hxy⟩ := hxt
        have := List.findIdx?_eq_none_iff.mp hft x hx
        simp [hxy] at this
      · rw [hft]
        have hihr := ih y (idsIncrB_weaken hinc.2 rfl) hxt
        rw [applyLowerBound_some, hft] at hihr
        rw [filter_cons_false (fun x => optLtB (some y) x.id) t htest]
        show (e :: t).drop (j + 1 + 1) = _
        rw [List.drop_succ_cons]
        exact hihr

/-- Resuming a cold fold: folding the prefix from the cold state,
then folding the events of the whole stream past the recorded replay
position (the stream the adapter serves for the checkpointed bound),
equals folding the whole stream from the cold state. -/
theorem foldRS_resume {P I CD R : Type} (cfg : RouterConfig P I CD R) (icn : String)
    (E1 ER : List RawEvent) (hsorted : idsIncrB none (E1 ++ ER) = true) :
    foldRS cfg icn (foldRS cfg icn (⟨none, none, []⟩ : RebuildSt I) E1)
        (applyLowerBound (E1 ++ ER)
          (foldRS cfg icn (⟨none, none, []⟩ : RebuildSt I) E1).eid false) =
      foldRS cfg icn (⟨none, none, []⟩ : RebuildSt I) (E1 ++ ER) := by
  have hE1inc : idsIncrB none E1 = true := idsIncrB_append_left hsorted
  rcases hc : (foldRS cfg icn (⟨none, none, []⟩ : RebuildSt I) E1).eid with _ | y
  · have hself : foldRS cfg icn (⟨none, none, []⟩ : RebuildSt I) E1 =
        (⟨none, none, []⟩ : RebuildSt I) :=
      foldRS_eq_self_of_eid_eq cfg icn E1 ⟨none, none, []⟩ (fun e _ => rfl) hc
    rw [hself]
    exact rfl
  · rcases foldRS_eid_cases cfg icn E1 (⟨none, none, []⟩ : RebuildSt I) with h2 | h2
    · rw [hc] at h2
      cases h2
    · obtain ⟨estar, hestar, heid⟩ := h2
      have hy : estar.id = y := by
        rw [hc] at heid
        exact (Option.some.inj heid).symm
      have hmem2 : ∃ x ∈ E1 ++ ER, x.id = y :=
        ⟨estar, List.mem_append_left ER hestar, hy⟩
      rw [applyLowerBound_eq_filter (E1 ++ ER) y hsorted hmem2, List.filter_append]
      have hERfull : ER.filter (fun e => optLtB (some y) e.id) = ER := by
        apply filter_eq_self_of_all
        intro c hcER
        have hlt : estar.id < c.id := idsIncrB_append_cross hsorted estar hestar c hcER
        have : y < c.id := by omega
        simpa [optLtB, Nat.blt_eq] using this
      rw [hERfull, foldRS_append]
      have hnoop := foldRS_replay_noop cfg icn E1 (⟨none, none, []⟩ : RebuildSt I) hE1inc
      rw [hc] at hnoop
      rw [hnoop, foldRS_append]

/-- The rebuild merger resumed from the checkpoint of a prefix of the
log computes the same value as a cold merge over the whole log. -/
theorem rebuildMerger_resume {P I CD R : Type} (cfg : RouterConfig P I CD R)
    (subject icn : String) (recursive : Bool) (log1 rest : List RawEvent) (n1 n2 : Nat)
    (hsorted : idsIncrB none (log1 ++ rest) = true) :
    rebuildMerger cfg ⟨log1 ++ rest, n2⟩ subject icn recursive
        (some (rebuildMerger cfg ⟨log1, n1⟩ subject icn recursive none)) =
      rebuildMerger cfg ⟨log1 ++ rest, n2⟩ subject icn recursive none := by
  have hE2 : filterEventsBySubject (log1 ++ rest) subject recursive =
      filterEventsBySubject log1 subject recursive ++
        filterEventsBySubject rest subject recursive := by
    unfold filterEventsBySubject
    exact List.filter_append _ _
  have hsf : idsIncrB none
      (filterEventsBySubject log1 subject recursive ++
        filterEventsBySubject rest subject recursive) = true := by
    rw [← hE2]
    exact idsIncrB_filter _ hsorted
  have hfin : foldRS cfg icn
      (foldRS cfg icn (⟨none, none, []⟩ : RebuildSt I)
        (filterEventsBySubject log1 subject recursive))
      (applyLowerBound (filterEventsBySubject (log1 ++ rest) subject recursive)
        (foldRS cfg icn (⟨none, none, []⟩ : RebuildSt I)
          (filterEventsBySubject log1 subject recursive)).eid false) =
      foldRS cfg icn (⟨none, none, []⟩ : RebuildSt I)
        (filterEventsBySubject (log1 ++ rest) subject recursive) := by
    rw [hE2]
    exact foldRS_resume cfg icn _ _ hsf
  exact congrArg toCacheValue hfin

/-- fetchAndMerge on an empty in-memory cache with room for at least
one entry: the merger runs on null and the merged value is stored. -/
theorem fetchAndMerge_empty {I : Type} (cap : Nat) (k : String)
    (merger : Option (CacheValue I) → CacheValue I) (hcap : 1 ≤ cap) :
    InMemoryStateCache.fetchAndMerge ⟨[], cap⟩ k merger =
      (merger none, ⟨[(k, merger none)], cap⟩) := by
  unfold InMemoryStateCache.fetchAndMerge
  dsimp only
  rw [if_neg (by simpa [lookupEntry] using (by omega : ¬ cap < 1))]
  exact rfl

/-- fetchAndMerge on a cache holding exactly the requested key: the
entry is removed, the merger runs on it and the merged value replaces
it. -/
theorem fetchAndMerge_hit {I : Type} (cap : Nat) (k : String) (cv : CacheValue I)
    (merger : Option (CacheValue I) → CacheValue I) (hcap : 1 ≤ cap) :
    InMemoryStateCache.fetchAndMerge ⟨[(k, cv)], cap⟩ k merger =
      (merger (some cv), ⟨[(k, merger (some cv))], cap⟩) := by
  unfold InMemoryStateCache.fetchAndMerge
  dsimp only
  rw [show lookupEntry [(k, cv)] k = some cv by simp [lookupEntry]]
  rw [show eraseEntry [(k, cv)] k = ([] : List (String × CacheValue I)) by
    simp [eraseEntry]]
  rw [if_neg (by simpa using (by omega : ¬ cap < 1))]
  exact rfl

/-- Claim C3: over a store log with strictly increasing ids, rebuilding
from a cold in-memory cache over the whole log yields the same state
(instance and last event id) as rebuilding over a prefix of the log,
caching the resulting (eventId, instance) checkpoint, and rebuilding
over the grown log with that cache — the second rebuild resumes
streaming strictly after the checkpointed event id. -/
theorem c3_incremental_rebuild_equals_cold {P I CD R : Type} (cfg : RouterConfig P I CD R)
    (subject icn : String) (mode : SourcingMode) (log1 rest : List RawEvent)
    (n1 n2 cap : Nat) (hsorted : idsIncrB none (log1 ++ rest) = true) (hcap : 1 ≤ cap) :
    (rebuildState cfg ⟨log1 ++ rest, n2⟩
        (rebuildState cfg ⟨log1, n1⟩ (.inMemory ⟨[], cap⟩) subject icn mode).2.2
        subject icn mode).1 =
      (rebuildState cfg ⟨log1 ++ rest, n2⟩ (.inMemory ⟨[], cap⟩) subject icn mode).1
    ∧ (rebuildState cfg ⟨log1 ++ rest, n2⟩
        (rebuildState cfg ⟨log1, n1⟩ (.inMemory ⟨[], cap⟩) subject icn mode).2.2
        subject icn mode).2.1 =
      (rebuildState cfg ⟨log1 ++ rest, n2⟩ (.inMemory ⟨[], cap⟩) subject icn mode).2.1 := by
  by_cases hm : mode = .NONE
  · rw [hm]
    exact ⟨rfl, rfl⟩
  · have hres := rebuildMerger_resume cfg subject icn (mode == .RECURSIVE) log1 rest n1 n2
      hsorted
    have h1 : rebuildState cfg ⟨log1, n1⟩ (.inMemory ⟨[], cap⟩) subject icn mode =
        ((rebuildMerger cfg ⟨log1, n1⟩ subject icn (mode == .RECURSIVE) none).inst,
         (rebuildMerger cfg ⟨log1, n1⟩ subject icn (mode == .RECURSIVE) none).eventId,
         .inMemory ⟨[(buildKey subject icn mode,
           rebuildMerger cfg ⟨log1, n1⟩ subject icn (mode == .RECURSIVE) none)], cap⟩) := by
      unfold rebuildState
      rw [if_neg hm]
      unfold StateCache.fetchAndMerge
      dsimp only
      rw [fetchAndMerge_empty cap (buildKey subject icn mode)
        (rebuildMerger cfg ⟨log1, n1⟩ subject icn (mode == .RECURSIVE)) hcap]
    have h3 : rebuildState cfg ⟨log1 ++ rest, n2⟩ (.inMemory ⟨[], cap⟩) subject icn mode =
        ((rebuildMerger cfg ⟨log1 ++ rest, n2⟩ subject icn (mode == .RECURSIVE) none).inst,
         (rebuildMerger cfg ⟨log1 ++ rest, n2⟩ subject icn (mode == .RECURSIVE) none).eventId,
         .inMemory ⟨[(buildKey subject icn mode,
           rebuildMerger cfg ⟨log1 ++ rest, n2⟩ subject icn (mode == .RECURSIVE) none)],
           cap⟩) := by
      unfold rebuildState
      rw [if_neg hm]
      unfold StateCache.fetchAndMerge
      dsimp only
      rw [fetchAndMerge_empty cap (buildKey subject icn mode)
        (rebuildMerger cfg ⟨log1 ++ rest, n2⟩ subject icn (mode == .RECURSIVE)) hcap]
    have h2 : rebuildState cfg ⟨log1 ++ rest, n2⟩
        (.inMemory ⟨[(buildKey subject icn mode,
          rebuildMerger cfg ⟨log1, n1⟩ subject icn (mode == .RECURSIVE) none)], cap⟩)
        subject icn mode =
        ((rebuildMerger cfg ⟨log1 ++ rest, n2⟩ subject icn (mode == .RECURSIVE)
            (some (rebuildMerger cfg ⟨log1, n1⟩ subject icn (mode == .RECURSIVE) none))).inst,
         (rebuildMerger cfg ⟨log1 ++ rest, n2⟩ subject icn (mode == .RECURSIVE)
            (some (rebuildMerger cfg ⟨log1, n1⟩ subject icn (mode == .RECURSIVE) none))).eventId,
         .inMemory ⟨[(buildKey subject icn mode,
           rebuildMerger cfg ⟨log1 ++ rest, n2⟩ subject icn (mode == .RECURSIVE)
             (some (rebuildMerger cfg ⟨log1, n1⟩ subject icn (mode == .RECURSIVE) none)))],
           cap⟩) := by
      unfold rebuildState
      rw [if_neg hm]
      unfold StateCache.fetchAndMerge
      dsimp only
      rw [fetchAndMerge_hit cap (buildKey subject icn mode)
        (rebuildMerger cfg ⟨log1, n1⟩ subject icn (mode == .RECURSIVE) none)
        (rebuildMerger cfg ⟨log1 ++ rest, n2⟩ subject icn (mode == .RECURSIVE)) hcap]
    rw [h1]
    dsimp only
    rw [h2, h3]
    exact ⟨congrArg (fun cv => cv.inst) hres, congrArg (fun cv => cv.eventId) hres⟩

/-- Witness for C3: the two-event demo log split after its first event;
the resumed rebuild and the cold rebuild agree on instance and event
id. -/
theorem c3_witness :
    idsIncrB none ([ev1] ++ [ev2]) = true ∧ 1 ≤ 10
    ∧ ((rebuildState demoCfg ⟨[ev1] ++ [ev2], 3⟩
          (rebuildState demoCfg ⟨[ev1], 2⟩ (.inMemory ⟨[], 10⟩) "/task/t1" "Task" .LOCAL).2.2
          "/task/t1" "Task" .LOCAL).1 =
        (rebuildState demoCfg ⟨[ev1] ++ [ev2], 3⟩ (.inMemory ⟨[], 10⟩)
          "/task/t1" "Task" .LOCAL).1
      ∧ (rebuildState demoCfg ⟨[ev1] ++ [ev2], 3⟩
          (rebuildState demoCfg ⟨[ev1], 2⟩ (.inMemory ⟨[], 10⟩) "/task/t1" "Task" .LOCAL).2.2
          "/task/t1" "Task" .LOCAL).2.1 =
        (rebuildState demoCfg ⟨[ev1] ++ [ev2], 3⟩ (.inMemory ⟨[], 10⟩)
          "/task/t1" "Task" .LOCAL).2.1) :=
  ⟨by decide, by decide,
   c3_incremental_rebuild_equals_cold demoCfg "/task/t1" "Task" .LOCAL [ev1] [ev2] 2 3 10
     (by decide) (by decide)⟩

end CQRSKit
